import Mathlib

/-!
# Verification of the `prediction_and_shapley` Triton Python backend

Shallow embedding of
`trained_models/python_backend_model_repository/prediction_and_shapley/1/model.py`:
a GraphSAGE embedder, an XGBoost scorer, and a sampling-based Shapley
attributor, orchestrated by `TritonPythonModel.initialize`/`execute`.

Tensors are modelled as lists of rationals (floating point is abstracted to
exact rational arithmetic).  The serving transport (`pb_utils`), device
placement and dtype casts are plumbing and are abstracted away; randomness
(dropout masks, sampled permutations) is passed in explicitly.
-/

namespace FraudModel

/-- A vector: one row of a tensor. -/
abbrev Vec := List ℚ

/-- A matrix: a 2-D tensor as a list of rows. -/
abbrev Mat := List (List ℚ)

/-- Elementwise addition (`torch` broadcast-free tensor add). -/
def vadd (u v : Vec) : Vec := List.zipWith (· + ·) u v

/-- Elementwise subtraction. -/
def vsub (u v : Vec) : Vec := List.zipWith (· - ·) u v

/-- Scalar multiplication of a vector. -/
def smulVec (c : ℚ) (v : Vec) : Vec := v.map (fun a => c * a)

/-- Dot product. -/
def dot (u v : Vec) : ℚ := (List.zipWith (· * ·) u v).sum

/-- Matrix–vector product: one output entry per matrix row. -/
def matVec (M : Mat) (v : Vec) : Vec := M.map (fun row => dot row v)

/-- `torch.zeros_like`: a zero matrix with the argument's shape. -/
def zeroLike (m : Mat) : Mat := m.map (fun r => r.map (fun _ => (0 : ℚ)))

/-- Per-row sums of a matrix. -/
def rowSums (m : Mat) : Vec := m.map List.sum

/-- Entrywise sum of two matrices. -/
def addMat (a b : Mat) : Mat := List.zipWith vadd a b

/-- Entrywise scalar multiple of a matrix. -/
def scaleMat (c : ℚ) (m : Mat) : Mat := m.map (smulVec c)

/-- The shape of a matrix, as the list of its row lengths. -/
def dims (m : Mat) : List ℕ := m.map List.length

/-! ## GraphSAGE (`class GraphSAGE`, model.py lines 49–107) -/

/-- Trained weights of one `SAGEConv` layer (torch_geometric `SAGEConv`):
`lin_l` (with bias) is applied to the mean-aggregated neighbour features,
`lin_r` (no bias) to the node's own features. -/
structure SAGEConvWeights where
  lin_l : Mat
  lin_l_bias : Vec
  lin_r : Mat
  deriving DecidableEq

/-- Feature rows of the in-neighbours of node `i`: sources of the edges whose
target is `i` (`edge_index` columns `(source, target)`), duplicates kept. -/
def neighborRows (edges : List (ℕ × ℕ)) (x : Mat) (i : ℕ) : Mat :=
  (edges.filter (fun e => e.2 = i)).map (fun e => x.getD e.1 [])

/-- Mean of a list of rows of width `w`; the empty neighbourhood aggregates to
the zero vector (torch_geometric scatter-mean convention for isolated nodes). -/
def meanRows (w : ℕ) (rows : Mat) : Vec :=
  if rows.isEmpty then List.replicate w 0
  else smulVec (1 / (rows.length : ℚ)) (rows.foldl vadd (List.replicate w 0))

/-- One `SAGEConv` application: for each node `i`,
`lin_l (mean of in-neighbour rows) + bias + lin_r x_i`. -/
def sageConvForward (w : SAGEConvWeights) (edges : List (ℕ × ℕ)) (x : Mat) : Mat :=
  (List.range x.length).map (fun i =>
    let xi := x.getD i []
    vadd (vadd (matVec w.lin_l (meanRows xi.length (neighborRows edges x i))) w.lin_l_bias)
      (matVec w.lin_r xi))

/-- `F.relu`, elementwise. -/
def reluMat (m : Mat) : Mat := m.map (fun r => r.map (fun a => max a 0))

/-- `F.dropout(x, p, training)`: when `training` is true, zero the entries the
random mask `keep` rejects and rescale the kept ones by `1 / (1 - p)`; when
`training` is false it is the identity. -/
def dropoutMat (training : Bool) (keep : ℕ → ℕ → Bool) (p : ℚ) (m : Mat) : Mat :=
  if training then
    (List.range m.length).map (fun i =>
      let row := m.getD i []
      (List.range row.length).map (fun j =>
        if keep i j then row.getD j 0 / (1 - p) else 0))
  else m

/-- The `GraphSAGE` module: hyperparameters, the `SAGEConv` list, the linear
output head `fc`, the dropout probability and the train/eval mode flag. -/
structure GraphSAGE where
  in_channels : ℕ
  hidden_channels : ℕ
  out_channels : ℕ
  n_layers : ℕ
  convs : List SAGEConvWeights
  fcW : Mat
  fcB : Vec
  dropout_prob : ℚ
  training : Bool

/-- The conv/relu/dropout loop of `GraphSAGE.forward` (lines 97–103): the
running representation starts at `x` and is threaded through every layer;
`rnd i` is the dropout mask of layer `i`. -/
def GraphSAGE.layersOut (g : GraphSAGE) (rnd : ℕ → ℕ → ℕ → Bool) (x : Mat)
    (edges : List (ℕ × ℕ)) : Mat :=
  (g.convs.foldl
    (fun s conv =>
      (dropoutMat g.training (rnd s.2) g.dropout_prob (reluMat (sageConvForward conv edges s.1)),
        s.2 + 1))
    (x, 0)).1

/-- `GraphSAGE.forward` (lines 95–107): with `return_hidden` the original
features are concatenated with the last layer's output (skip connection);
otherwise the linear head `fc` is applied to that concatenation. -/
def GraphSAGE.forward (g : GraphSAGE) (rnd : ℕ → ℕ → ℕ → Bool) (x : Mat)
    (edges : List (ℕ × ℕ)) (return_hidden : Bool) : Mat :=
  let embeddings := g.layersOut rnd x edges
  if return_hidden then List.zipWith (· ++ ·) x embeddings
  else (List.zipWith (· ++ ·) x embeddings).map (fun row => vadd (matVec g.fcW row) g.fcB)

/-! ## Errors raised while serving -/

/-- Per-request failures: the exceptions torch / xgboost / captum raise inside
`execute` (shape mismatches and invalid sampling parameters). -/
inductive ReqError where
  | featureWidthMismatch
  | scoringWidthMismatch
  | baselineShapeMismatch
  | invalidSampleCount
  deriving DecidableEq

/-- Startup failures inside `initialize`: a missing configuration key
(`KeyError` from direct indexing) or an unparsable integer (`ValueError`). -/
inductive InitError where
  | keyError (k : String)
  | valueError (k : String)
  deriving DecidableEq

/-- The pre-trained XGBoost tree ensemble (`xgb.Booster`), opaque except for
the feature width it validates and the score it assigns to a row. -/
structure Booster where
  numFeatures : ℕ
  predictFn : Vec → ℚ

/-- `bst.predict(xgb.DMatrix(...))`: xgboost validates that every row has the
ensemble's expected feature width and raises otherwise. -/
def Booster.predictChecked (b : Booster) (m : Mat) : Except ReqError Vec :=
  if ∀ r ∈ m, r.length = b.numFeatures then .ok (m.map b.predictFn)
  else .error .scoringWidthMismatch

/-- `self.model(...)` with the shape check torch performs at the first
matmul: every feature row must have width `in_channels`. -/
def GraphSAGE.forwardChecked (g : GraphSAGE) (rnd : ℕ → ℕ → ℕ → Bool) (x : Mat)
    (edges : List (ℕ × ℕ)) (return_hidden : Bool) : Except ReqError Mat :=
  if ∀ r ∈ x, r.length = g.in_channels then .ok (g.forward rnd x edges return_hidden)
  else .error .featureWidthMismatch

/-! ## Shapley value sampling

Modelled from the spec: `captum.attr.ShapleyValueSampling` (library code, not
part of this repository) following §4.4 of the design: per sampled permutation
of the coalition groups, walk the permutation replacing the running matrix's
group columns with `x`'s values, record each group's score difference, scatter
it to every member feature, and average over the samples. -/

/-- Replace, in the row `cur`, the entries of the columns whose mask id is `g`
with `x`'s entries. -/
def replaceRow : List ℕ → ℕ → Vec → Vec → Vec
  | m :: ms, g, xv :: xs, cv :: cs => (if m = g then xv else cv) :: replaceRow ms g xs cs
  | _, _, _, _ => []

/-- Add `d` to the entries of the columns whose mask id is `g`. -/
def scatterRow : List ℕ → ℕ → ℚ → Vec → Vec
  | m :: ms, g, d, a :: bs => (if m = g then a + d else a) :: scatterRow ms g d bs
  | _, _, _, _ => []

/-- Specification device for reasoning about iterated `replaceRow`: the row
whose `j`-th entry is `x`'s when the mask id of column `j` lies in `applied`,
and `cur`'s otherwise. -/
def mergeRow (applied : List ℕ) : List ℕ → Vec → Vec → Vec
  | m :: ms, xv :: xs, cv :: cs =>
    (if m ∈ applied then xv else cv) :: mergeRow applied ms xs cs
  | _, _, _ => []

/-- Columnwise group replacement, on every row of the matrix (the feature mask
is broadcast across rows, as captum broadcasts a `[1, F]` mask). -/
def replaceMat (mask : List ℕ) (g : ℕ) (x cur : Mat) : Mat :=
  List.zipWith (fun xr cr => replaceRow mask g xr cr) x cur

/-- Scatter the per-row differences `dvec` into the columns of group `g`. -/
def scatterMat (mask : List ℕ) (g : ℕ) (dvec : Vec) (acc : Mat) : Mat :=
  List.zipWith (fun d r => scatterRow mask g d r) dvec acc

/-- One permutation step: replace group `g`'s columns, re-evaluate the scoring
function, and credit the per-row difference to group `g`'s columns.  The state
is (running matrix, its evaluation, accumulated attributions). -/
def sampleStep (f : Mat → Vec) (mask : List ℕ) (x : Mat)
    (s : Mat × Vec × Mat) (g : ℕ) : Mat × Vec × Mat :=
  let next := replaceMat mask g x s.1
  let ev := f next
  (next, ev, scatterMat mask g (vsub ev s.2.1) s.2.2)

/-- The attribution matrix contributed by one sampled permutation: walk the
permutation starting from the baseline. -/
def sampleAttrib (f : Mat → Vec) (mask : List ℕ) (x b : Mat) (perm : List ℕ) : Mat :=
  (perm.foldl (sampleStep f mask x) (b, f b, zeroLike x)).2.2

/-- Average of the per-sample attribution matrices over the sampled
permutations. -/
def shapleyCore (f : Mat → Vec) (mask : List ℕ) (x b : Mat)
    (perms : List (List ℕ)) : Mat :=
  scaleMat (1 / (perms.length : ℚ))
    (perms.foldl (fun acc p => addMat acc (sampleAttrib f mask x b p)) (zeroLike x))

/-- Modelled from the spec: `ShapleyValueSampling.attribute` (captum library
code absent from the repository).  Validates that baseline and input share a
shape and that `n_samples ≥ 1`, draws `n_samples` permutations from the
randomness source `sampler`, and also reports the number of scoring-function
evaluations performed (one initial baseline evaluation plus one per
permutation step). -/
def attributeChecked (f : Mat → Vec) (x baselines : Mat) (feature_mask : List ℕ)
    (n_samples : ℕ) (sampler : ℕ → List (List ℕ)) : Except ReqError (Mat × ℕ) :=
  if dims baselines = dims x then
    if 1 ≤ n_samples then
      let perms := sampler n_samples
      .ok (shapleyCore f feature_mask x baselines perms, 1 + (perms.map List.length).sum)
    else .error .invalidSampleCount
  else .error .baselineShapeMismatch

/-! ## `TritonPythonModel` -/

/-- The state `initialize` stores on `self` (device handles and dtype lookups
are plumbing and omitted). -/
structure ModelState where
  in_channels : ℕ
  hidden_channels : ℕ
  out_channels : ℕ
  n_layers : ℕ
  embedder_state_dict_filename : String
  xgb_model_filename : String
  model : GraphSAGE
  bst : Booster

/-- The contents of the embedder's state-dict file. -/
structure StateDict where
  convs : List SAGEConvWeights
  fcW : Mat
  fcB : Vec

/-- Direct indexing `parameters[k]["string_value"]`: a missing key raises
`KeyError`. -/
def requireKey (params : String → Option String) (k : String) : Except InitError String :=
  match params k with
  | some v => .ok v
  | none => .error (.keyError k)

/-- `int(s)`: an unparsable string raises `ValueError`. -/
def parseNatConfig (k v : String) : Except InitError ℕ :=
  match v.toNat? with
  | some n => .ok n
  | none => .error (.valueError k)

/-- The six required configuration keys of `initialize`
(model.py lines 118–129). -/
def requiredKeys : List String :=
  ["in_channels", "hidden_channels", "out_channels", "n_layers",
    "embedding_generator_model_state_dict", "embeddings_based_xgboost_model"]

/-- `TritonPythonModel.initialize` (lines 111–170): parse the six
configuration entries with no defaults, build the `GraphSAGE` (default
`dropout_prob = 0.25`), load its state dict and the booster, and put the
embedder in eval mode (`self.model.eval()` ⇒ `training := false`).
`loadStateDict` / `loadBooster` abstract the filesystem reads.
No width compatibility between the embedder and the booster is checked. -/
def initializeModel (params : String → Option String)
    (loadStateDict : String → StateDict) (loadBooster : String → Booster) :
    Except InitError ModelState := do
  let icS ← requireKey params "in_channels"
  let ic ← parseNatConfig "in_channels" icS
  let hcS ← requireKey params "hidden_channels"
  let hc ← parseNatConfig "hidden_channels" hcS
  let ocS ← requireKey params "out_channels"
  let oc ← parseNatConfig "out_channels" ocS
  let nlS ← requireKey params "n_layers"
  let nl ← parseNatConfig "n_layers" nlS
  let embFile ← requireKey params "embedding_generator_model_state_dict"
  let xgbFile ← requireKey params "embeddings_based_xgboost_model"
  let sd := loadStateDict embFile
  return {
    in_channels := ic, hidden_channels := hc, out_channels := oc, n_layers := nl,
    embedder_state_dict_filename := embFile, xgb_model_filename := xgbFile,
    model := {
      in_channels := ic, hidden_channels := hc, out_channels := oc, n_layers := nl,
      convs := sd.convs, fcW := sd.fcW, fcB := sd.fcB,
      dropout_prob := 1 / 4, training := false },
    bst := loadBooster xgbFile }

/-- The four request tensors `execute` reads (`COMPUTE_SHAP` is its leading
scalar, `EDGE_INDEX` its list of `(source, target)` columns). -/
structure Request where
  node_features : Mat
  edge_index : List (ℕ × ℕ)
  compute_shap : Bool
  feature_mask : List ℕ
  deriving DecidableEq

/-- The two output tensors of a response (dtype casts abstracted away). -/
structure Response where
  prediction : Mat
  shap_values : Mat
  deriving DecidableEq

/-- Instrumentation of one request's processing: how many scoring passes
(embed + predict) ran, whether a `ShapleyValueSampling` object was built, the
`n_samples` argument it received, and the baseline it was given. -/
structure Trace where
  scoringCalls : ℕ
  shapleyConstructed : Bool
  nSamplesUsed : Option ℕ
  baselineUsed : Option Mat
  deriving DecidableEq

/-- The closure `forward_function` (lines 198–206) composed with
`bst.predict`: raw node features to per-node scores, closing over the
request's edge list and the loaded weights. -/
def scoreFromRaw (st : ModelState) (rnd : ℕ → ℕ → ℕ → Bool)
    (edges : List (ℕ × ℕ)) (m : Mat) : Vec :=
  (st.model.forward rnd m edges true).map st.bst.predictFn

/-- The body of `execute`'s per-request loop (lines 176–238): embed, score
(`[:, None]` turns the score vector into a column), then either run Shapley
sampling with the all-zero baseline, the request's feature mask and
`n_samples=128`, or emit the fixed `torch.zeros((1, in_channels))`. -/
def processRequest (st : ModelState) (rnd : ℕ → ℕ → ℕ → Bool)
    (sampler : ℕ → List (List ℕ)) (req : Request) :
    Except ReqError (Response × Trace) := do
  let embeddings ← st.model.forwardChecked rnd req.node_features req.edge_index true
  let y ← st.bst.predictChecked embeddings
  if req.compute_shap then
    let res ← attributeChecked (scoreFromRaw st rnd req.edge_index) req.node_features
      (zeroLike req.node_features) req.feature_mask 128 sampler
    return ({ prediction := y.map (fun v => [v]), shap_values := res.1 },
      { scoringCalls := 1 + res.2, shapleyConstructed := true,
        nSamplesUsed := some 128, baselineUsed := some (zeroLike req.node_features) })
  else
    return ({ prediction := y.map (fun v => [v]), shap_values := [List.replicate st.in_channels 0] },
      { scoringCalls := 1, shapleyConstructed := false,
        nSamplesUsed := none, baselineUsed := none })

/-- `TritonPythonModel.execute` (lines 172–239): process the batch in order;
there is no exception handling, so the first raising request propagates out
and the responses accumulated so far are discarded. -/
def execute (st : ModelState) (rnd : ℕ → ℕ → ℕ → Bool)
    (sampler : ℕ → List (List ℕ)) : List Request → Except ReqError (List Response)
  | [] => .ok []
  | r :: rs => do
    let p ← processRequest st rnd sampler r
    let rest ← execute st rnd sampler rs
    return p.1 :: rest

/-! ## Concrete fixtures

A small concrete deployment used to evaluate the pipeline on explicit
inputs: `in_channels = 2`, `hidden_channels = 1`, `out_channels = 1`,
`n_layers = 1`, a single `SAGEConv` whose self-weight sums the two input
features, and a booster that sums an embedding row. -/

/-- Weights of the fixture's single conv layer. -/
def fixtureConv : SAGEConvWeights :=
  { lin_l := [[0, 0]], lin_l_bias := [0], lin_r := [[1, 1]] }

/-- The fixture's embedder state dict. -/
def fixtureSD : StateDict :=
  { convs := [fixtureConv], fcW := [[1, 1, 1]], fcB := [0] }

/-- The fixture's tree ensemble: expects width `3 = 2 + 1`, scores a row by
its sum. -/
def fixtureBooster : Booster := { numFeatures := 3, predictFn := List.sum }

/-- A tree ensemble whose expected width `5` does not match the embedder's
output width `3`. -/
def mismatchBooster : Booster := { numFeatures := 5, predictFn := List.sum }

/-- A complete model configuration, as the `parameters` lookup. -/
def goodParams : String → Option String := fun k =>
  if k = "in_channels" then some "2"
  else if k = "hidden_channels" then some "1"
  else if k = "out_channels" then some "1"
  else if k = "n_layers" then some "1"
  else if k = "embedding_generator_model_state_dict" then some "embedder.pt"
  else if k = "embeddings_based_xgboost_model" then some "xgb.json"
  else none

/-- `goodParams` with `n_layers` removed. -/
def missingParams : String → Option String := fun k =>
  if k = "n_layers" then none else goodParams k

/-- The fixture's embedder module, in eval mode. -/
def fixtureSAGE : GraphSAGE :=
  { in_channels := 2, hidden_channels := 1, out_channels := 1, n_layers := 1,
    convs := [fixtureConv], fcW := [[1, 1, 1]], fcB := [0],
    dropout_prob := 1 / 4, training := false }

/-- The fixture deployment state. -/
def fixtureState : ModelState :=
  { in_channels := 2, hidden_channels := 1, out_channels := 1, n_layers := 1,
    embedder_state_dict_filename := "embedder.pt", xgb_model_filename := "xgb.json",
    model := fixtureSAGE,
    bst := fixtureBooster }

/-- The fixture deployment with the width-mismatched ensemble. -/
def mismatchState : ModelState := { fixtureState with bst := mismatchBooster }

/-- A dropout-mask source (irrelevant in eval mode). -/
def fixtureRnd : ℕ → ℕ → ℕ → Bool := fun _ _ _ => true

/-- A second dropout-mask source, differing from `fixtureRnd`. -/
def fixtureRnd2 : ℕ → ℕ → ℕ → Bool := fun _ _ _ => false

/-- A permutation source for masks whose distinct group ids are `0` and `1`:
every sample is the permutation `[0, 1]`. -/
def fixtureSampler : ℕ → List (List ℕ) := fun n => List.replicate n [0, 1]

/-- A permutation source for masks whose only group id is `0`. -/
def oneGroupSampler : ℕ → List (List ℕ) := fun n => List.replicate n [0]

/-- A one-node request asking for attribution, each feature its own group. -/
def req1T : Request :=
  { node_features := [[1, 1]], edge_index := [], compute_shap := true,
    feature_mask := [0, 1] }

/-- The same one-node request with attribution declined. -/
def req1F : Request := { req1T with compute_shap := false }

/-- A two-node request asking for attribution. -/
def req2T : Request :=
  { node_features := [[1, 0], [0, 1]], edge_index := [], compute_shap := true,
    feature_mask := [0, 1] }

/-- The two-node request with attribution declined. -/
def req2F : Request := { req2T with compute_shap := false }

/-- A one-node request whose two features share coalition group `0`. -/
def reqGrouped : Request :=
  { node_features := [[1, 1]], edge_index := [], compute_shap := true,
    feature_mask := [0, 0] }

/-- A malformed request: its feature row has width 1 instead of
`in_channels = 2`. -/
def reqBad : Request :=
  { node_features := [[1]], edge_index := [], compute_shap := false,
    feature_mask := [0, 1] }

/-- The response the fixture emits for `req1T`. -/
def respT1 : Response := { prediction := [[4]], shap_values := [[2, 2]] }

/-- The trace the fixture records for `req1T`. -/
def traceT1 : Trace :=
  { scoringCalls := 258, shapleyConstructed := true, nSamplesUsed := some 128,
    baselineUsed := some [[0, 0]] }

/-- The response the fixture emits for `req1F`. -/
def respF1 : Response := { prediction := [[4]], shap_values := [[0, 0]] }

/-- The trace the fixture records for `req1F`. -/
def traceF1 : Trace :=
  { scoringCalls := 1, shapleyConstructed := false, nSamplesUsed := none,
    baselineUsed := none }

/-- Decidable equality of `Except` results, for evaluating the pipeline on
concrete inputs. -/
instance exceptDecEq {ε α : Type} [DecidableEq ε] [DecidableEq α] :
    DecidableEq (Except ε α) := fun a b =>
  match a, b with
  | .ok x, .ok y =>
    if h : x = y then isTrue (by rw [h]) else isFalse (fun hh => by cases hh; exact h rfl)
  | .error x, .error y =>
    if h : x = y then isTrue (by rw [h]) else isFalse (fun hh => by cases hh; exact h rfl)
  | .ok _, .error _ => isFalse (fun hh => by cases hh)
  | .error _, .ok _ => isFalse (fun hh => by cases hh)

/-! ## Vector lemmas -/

theorem length_vadd (u v : Vec) : (vadd u v).length = min u.length v.length :=
  List.length_zipWith _ _ _

theorem length_vsub (u v : Vec) : (vsub u v).length = min u.length v.length :=
  List.length_zipWith _ _ _

theorem length_smulVec (c : ℚ) (v : Vec) : (smulVec c v).length = v.length :=
  List.length_map _ _

theorem length_rowSums (m : Mat) : (rowSums m).length = m.length :=
  List.length_map _ _

theorem vadd_cons (a b : ℚ) (u v : Vec) : vadd (a :: u) (b :: v) = (a + b) :: vadd u v := rfl

theorem vsub_cons (a b : ℚ) (u v : Vec) : vsub (a :: u) (b :: v) = (a - b) :: vsub u v := rfl

theorem smulVec_cons (c a : ℚ) (v : Vec) : smulVec c (a :: v) = (c * a) :: smulVec c v := rfl

theorem sum_vadd : ∀ {u v : Vec}, u.length = v.length → (vadd u v).sum = u.sum + v.sum
  | [], [], _ => by simp [vadd]
  | [], _ :: _, h => by simp at h
  | _ :: _, [], h => by simp at h
  | a :: u, b :: v, h => by
    have h' : u.length = v.length := by simpa using h
    simp only [vadd_cons, List.sum_cons]
    rw [sum_vadd h']
    ring

theorem sum_smulVec (c : ℚ) : ∀ (v : Vec), (smulVec c v).sum = c * v.sum
  | [] => by simp [smulVec]
  | a :: v => by
    simp only [smulVec, List.map_cons, List.sum_cons] at *
    rw [show (List.map (fun a => c * a) v).sum = (smulVec c v).sum from rfl, sum_smulVec c v]
    ring

theorem smulVec_smulVec (c d : ℚ) (v : Vec) :
    smulVec c (smulVec d v) = smulVec (c * d) v := by
  simp [smulVec, List.map_map, Function.comp, mul_assoc]

theorem smulVec_one (v : Vec) : smulVec 1 v = v := by
  simp [smulVec]

theorem vadd_vsub_self : ∀ {u v : Vec}, v.length = u.length → vadd u (vsub v v) = u
  | [], _, _ => by simp [vadd]
  | _ :: _, [], h => by simp at h
  | a :: u, b :: v, h => by
    have h' : v.length = u.length := by simpa using h
    rw [vsub_cons, vadd_cons, vadd_vsub_self h']
    simp

theorem vadd_replicate_zero : ∀ {u : Vec} {n : ℕ}, u.length = n →
    vadd (List.replicate n 0) u = u
  | [], _, h => by simp [vadd, ← h]
  | a :: u, _, h => by
    cases h
    rw [List.length_cons, List.replicate_succ, vadd_cons, vadd_replicate_zero rfl]
    simp

theorem vadd_vsub_cancel : ∀ {A B C D : Vec}, B.length = A.length → C.length = A.length →
    D.length = A.length → vadd (vadd A (vsub B C)) (vsub D B) = vadd A (vsub D C)
  | [], _, _, _, _, _, _ => by simp [vadd, vsub]
  | _ :: _, [], _, _, hB, _, _ => by simp at hB
  | _ :: _, _ :: _, [], _, _, hC, _ => by simp at hC
  | _ :: _, _ :: _, _ :: _, [], _, _, hD => by simp at hD
  | a :: A, b :: B, c :: C, d :: D, hB, hC, hD => by
    have hB' : B.length = A.length := by simpa using hB
    have hC' : C.length = A.length := by simpa using hC
    have hD' : D.length = A.length := by simpa using hD
    rw [vsub_cons, vsub_cons, vsub_cons, vadd_cons, vadd_cons, vadd_cons,
      vadd_vsub_cancel hB' hC' hD']
    congr 1
    ring

theorem vadd_vadd_smul_succ : ∀ {A Δ : Vec} (c : ℚ), Δ.length = A.length →
    vadd (vadd A Δ) (smulVec c Δ) = vadd A (smulVec (c + 1) Δ)
  | [], _, _, _ => by simp [vadd]
  | _ :: _, [], _, h => by simp at h
  | a :: A, d :: Δ, c, h => by
    have h' : Δ.length = A.length := by simpa using h
    rw [smulVec_cons, smulVec_cons, vadd_cons, vadd_cons, vadd_cons,
      vadd_vadd_smul_succ c h']
    congr 1
    ring

/-! ## Row-level Shapley lemmas -/

theorem replaceRow_nil (g : ℕ) (xr cr : Vec) : replaceRow [] g xr cr = [] := by
  cases xr <;> cases cr <;> rfl

theorem mergeRow_nil_mask (applied : List ℕ) (xr cr : Vec) :
    mergeRow applied [] xr cr = [] := by
  cases xr <;> cases cr <;> rfl

theorem mergeRow_nil_x (applied mask : List ℕ) (cr : Vec) :
    mergeRow applied mask [] cr = [] := by
  cases mask <;> cases cr <;> rfl

theorem mergeRow_nil_c (applied mask : List ℕ) (xr : Vec) :
    mergeRow applied mask xr [] = [] := by
  cases mask <;> cases xr <;> rfl

theorem mergeRow_cons (applied : List ℕ) (m : ℕ) (ms : List ℕ) (xv cv : ℚ) (xs cs : Vec) :
    mergeRow applied (m :: ms) (xv :: xs) (cv :: cs) =
      (if m ∈ applied then xv else cv) :: mergeRow applied ms xs cs := rfl

theorem replaceRow_cons (m : ℕ) (ms : List ℕ) (g : ℕ) (xv cv : ℚ) (xs cs : Vec) :
    replaceRow (m :: ms) g (xv :: xs) (cv :: cs) =
      (if m = g then xv else cv) :: replaceRow ms g xs cs := rfl

theorem scatterRow_nil (g : ℕ) (d : ℚ) (r : Vec) : scatterRow [] g d r = [] := by
  cases r <;> rfl

theorem scatterRow_cons (m : ℕ) (ms : List ℕ) (g : ℕ) (d a : ℚ) (bs : Vec) :
    scatterRow (m :: ms) g d (a :: bs) =
      (if m = g then a + d else a) :: scatterRow ms g d bs := rfl

theorem replaceRow_length : ∀ {mask : List ℕ} (g : ℕ) {xr cr : Vec},
    xr.length = mask.length → cr.length = mask.length →
    (replaceRow mask g xr cr).length = mask.length
  | [], g, xr, cr, _, _ => by rw [replaceRow_nil]; rfl
  | m :: ms, g, [], cr, hx, _ => by simp at hx
  | m :: ms, g, _ :: _, [], _, hc => by simp at hc
  | m :: ms, g, xv :: xs, cv :: cs, hx, hc => by
    rw [replaceRow_cons, List.length_cons, List.length_cons,
      replaceRow_length g (by simpa using hx) (by simpa using hc)]

theorem scatterRow_length : ∀ {mask : List ℕ} (g : ℕ) (d : ℚ) {r : Vec},
    r.length = mask.length → (scatterRow mask g d r).length = mask.length
  | [], g, d, r, _ => by rw [scatterRow_nil]; rfl
  | m :: ms, g, d, [], h => by simp at h
  | m :: ms, g, d, a :: bs, h => by
    rw [scatterRow_cons, List.length_cons, List.length_cons,
      scatterRow_length g d (by simpa using h)]

theorem scatterRow_sum : ∀ {mask : List ℕ} (g : ℕ) (d : ℚ) {r : Vec},
    r.length = mask.length →
    (scatterRow mask g d r).sum = r.sum + (mask.count g : ℚ) * d
  | [], g, d, r, h => by
    rw [scatterRow_nil]
    rw [List.length_nil] at h
    rw [List.eq_nil_of_length_eq_zero h]
    simp
  | m :: ms, g, d, [], h => by simp at h
  | m :: ms, g, d, a :: bs, h => by
    rw [scatterRow_cons, List.sum_cons, List.sum_cons,
      scatterRow_sum g d (by simpa using h), List.count_cons]
    by_cases hm : m = g
    · simp [hm]
      ring
    · have : ¬(g == m) := by simpa using fun hh => hm hh.symm
      simp [hm, this]
      ring

theorem mergeRow_nil_applied : ∀ {mask : List ℕ} {xr cr : Vec},
    xr.length = mask.length → cr.length = mask.length → mergeRow [] mask xr cr = cr
  | [], xr, cr, _, hc => by
    rw [mergeRow_nil_mask]
    exact (List.eq_nil_of_length_eq_zero hc).symm
  | m :: ms, [], cr, hx, _ => by simp at hx
  | m :: ms, xv :: xs, [], _, hc => by simp at hc
  | m :: ms, xv :: xs, cv :: cs, hx, hc => by
    rw [mergeRow_cons, mergeRow_nil_applied (by simpa using hx) (by simpa using hc)]
    simp

theorem mergeRow_replaceRow (g : ℕ) (applied : List ℕ) :
    ∀ (mask : List ℕ) (xr cr : Vec),
      mergeRow applied mask xr (replaceRow mask g xr cr) =
        mergeRow (g :: applied) mask xr cr
  | [], xr, cr => by rw [replaceRow_nil, mergeRow_nil_mask, mergeRow_nil_mask]
  | m :: ms, [], cr => by
    rw [mergeRow_nil_x, mergeRow_nil_x]
  | m :: ms, xv :: xs, [] => by
    rw [show replaceRow (m :: ms) g (xv :: xs) [] = [] from rfl,
      mergeRow_nil_c, mergeRow_nil_c]
  | m :: ms, xv :: xs, cv :: cs => by
    rw [replaceRow_cons, mergeRow_cons, mergeRow_cons,
      mergeRow_replaceRow g applied ms xs cs]
    congr 1
    by_cases hm : m = g
    · simp [hm]
    · by_cases ha : m ∈ applied <;> simp [hm, ha]

theorem mergeRow_covered : ∀ {applied mask : List ℕ} {xr cr : Vec},
    xr.length = mask.length → cr.length = mask.length →
    (∀ g ∈ mask, g ∈ applied) → mergeRow applied mask xr cr = xr
  | _, [], xr, cr, hx, _, _ => by
    rw [mergeRow_nil_mask]
    exact (List.eq_nil_of_length_eq_zero hx).symm
  | _, m :: ms, [], cr, hx, _, _ => by simp at hx
  | _, m :: ms, xv :: xs, [], _, hc, _ => by simp at hc
  | applied, m :: ms, xv :: xs, cv :: cs, hx, hc, hcov => by
    rw [mergeRow_cons, mergeRow_covered (by simpa using hx) (by simpa using hc)
      (fun g hg => hcov g (List.mem_cons_of_mem m hg)),
      if_pos (hcov m (List.mem_cons_self m ms))]

/-! ## Matrix-level Shapley lemmas -/

theorem length_zeroLike (m : Mat) : (zeroLike m).length = m.length :=
  List.length_map _ _

theorem rowsLen_zeroLike {F : ℕ} {m : Mat} (h : ∀ r ∈ m, r.length = F) :
    ∀ r ∈ zeroLike m, r.length = F := by
  intro r hr
  obtain ⟨r0, hr0, rfl⟩ := List.mem_map.mp hr
  simpa using h r0 hr0

theorem rowSums_zeroLike : ∀ (m : Mat), rowSums (zeroLike m) = List.replicate m.length 0
  | [] => rfl
  | r :: m => by
    simp only [zeroLike, List.map_cons, rowSums, List.length_cons, List.replicate_succ]
    congr 1
    · exact List.sum_eq_zero (fun x hx => by
        obtain ⟨a, _, rfl⟩ := List.mem_map.mp hx
        rfl)
    · have := rowSums_zeroLike m
      simpa [rowSums, zeroLike] using this

theorem length_replaceMat (mask : List ℕ) (g : ℕ) (x cur : Mat) :
    (replaceMat mask g x cur).length = min x.length cur.length :=
  List.length_zipWith _ _ _

theorem rowsLen_replaceMat {mask : List ℕ} {g : ℕ} :
    ∀ {x cur : Mat}, (∀ r ∈ x, r.length = mask.length) →
      (∀ r ∈ cur, r.length = mask.length) →
      ∀ r ∈ replaceMat mask g x cur, r.length = mask.length
  | [], cur, _, _ => by simp [replaceMat]
  | _ :: _, [], _, _ => by simp [replaceMat]
  | xr :: x, cr :: cur, hx, hc => by
    simp only [replaceMat, List.zipWith_cons_cons, List.mem_cons]
    rintro r (rfl | hr)
    · exact replaceRow_length g (hx xr (by simp)) (hc cr (by simp))
    · exact rowsLen_replaceMat (fun r hr2 => hx r (by simp [hr2]))
        (fun r hr2 => hc r (by simp [hr2])) r hr

theorem length_scatterMat (mask : List ℕ) (g : ℕ) (dvec : Vec) (acc : Mat) :
    (scatterMat mask g dvec acc).length = min dvec.length acc.length :=
  List.length_zipWith _ _ _

theorem rowsLen_scatterMat {mask : List ℕ} {g : ℕ} :
    ∀ {dvec : Vec} {acc : Mat}, (∀ r ∈ acc, r.length = mask.length) →
      ∀ r ∈ scatterMat mask g dvec acc, r.length = mask.length
  | [], acc, _ => by simp [scatterMat]
  | _ :: _, [], _ => by simp [scatterMat]
  | d :: dvec, ar :: acc, hacc => by
    simp only [scatterMat, List.zipWith_cons_cons, List.mem_cons]
    rintro r (rfl | hr)
    · exact scatterRow_length g d (hacc ar (by simp))
    · exact rowsLen_scatterMat (fun r hr2 => hacc r (by simp [hr2])) r hr

theorem rowSums_scatterMat (mask : List ℕ) (g : ℕ) :
    ∀ (dvec : Vec) (acc : Mat), (∀ r ∈ acc, r.length = mask.length) →
      rowSums (scatterMat mask g dvec acc) =
        vadd (rowSums acc) (smulVec (mask.count g : ℚ) dvec)
  | [], acc, _ => by simp [scatterMat, rowSums, smulVec, vadd]
  | _ :: _, [], _ => by simp [scatterMat, rowSums, smulVec, vadd]
  | d :: dvec, ar :: acc, hacc => by
    have ih := rowSums_scatterMat mask g dvec acc (fun r hr2 => hacc r (by simp [hr2]))
    simp only [scatterMat, List.zipWith_cons_cons, rowSums, List.map_cons, smulVec] at ih ⊢
    rw [vadd_cons, scatterRow_sum g d (hacc ar (by simp)), ih]

theorem rowSums_addMat (F : ℕ) :
    ∀ (a b : Mat), (∀ r ∈ a, r.length = F) → (∀ r ∈ b, r.length = F) →
      rowSums (addMat a b) = vadd (rowSums a) (rowSums b)
  | [], b, _, _ => by simp [addMat, rowSums, vadd]
  | _ :: _, [], _, _ => by simp [addMat, rowSums, vadd]
  | ar :: a, br :: b, ha, hb => by
    have ih := rowSums_addMat F a b (fun r hr => ha r (by simp [hr]))
      (fun r hr => hb r (by simp [hr]))
    simp only [addMat, List.zipWith_cons_cons, rowSums, List.map_cons] at ih ⊢
    rw [vadd_cons, sum_vadd ((ha ar (by simp)).trans (hb br (by simp)).symm), ih]

theorem length_addMat (a b : Mat) : (addMat a b).length = min a.length b.length :=
  List.length_zipWith _ _ _

theorem rowsLen_addMat {F : ℕ} :
    ∀ {a b : Mat}, (∀ r ∈ a, r.length = F) → (∀ r ∈ b, r.length = F) →
      ∀ r ∈ addMat a b, r.length = F
  | [], b, _, _ => by simp [addMat]
  | _ :: _, [], _, _ => by simp [addMat]
  | ar :: a, br :: b, ha, hb => by
    simp only [addMat, List.zipWith_cons_cons, List.mem_cons]
    rintro r (rfl | hr)
    · rw [length_vadd, ha ar (by simp), hb br (by simp), min_self]
    · exact rowsLen_addMat (fun r hr2 => ha r (by simp [hr2]))
        (fun r hr2 => hb r (by simp [hr2])) r hr

theorem rowSums_scaleMat (c : ℚ) (m : Mat) :
    rowSums (scaleMat c m) = smulVec c (rowSums m) := by
  simp only [rowSums, scaleMat, smulVec, List.map_map]
  exact List.map_congr_left (fun r _ => sum_smulVec c r)

theorem length_scaleMat (c : ℚ) (m : Mat) : (scaleMat c m).length = m.length :=
  List.length_map _ _

theorem rowsLen_scaleMat {F : ℕ} {c : ℚ} {m : Mat} (h : ∀ r ∈ m, r.length = F) :
    ∀ r ∈ scaleMat c m, r.length = F := by
  intro r hr
  obtain ⟨r0, hr0, rfl⟩ := List.mem_map.mp hr
  rw [length_smulVec]
  exact h r0 hr0

/-! ## Fold invariants of the permutation walk -/

theorem zipWith_id_right {α β : Type} (f : α → β → β) :
    ∀ (x : List α) (cur : List β), cur.length = x.length →
      (∀ a b, f a b = b) → List.zipWith f x cur = cur
  | [], cur, h, _ => by simpa using (List.eq_nil_of_length_eq_zero (by simpa using h))
  | _ :: _, [], h, _ => by simp [List.zipWith]
  | a :: x, c :: cur, h, hid => by
    simp only [List.zipWith_cons_cons, hid]
    rw [zipWith_id_right f x cur (by simpa using h) hid]

theorem zipWith_fuse {α β γ : Type} (f : α → γ → β) (h : α → β → γ) :
    ∀ (x : List α) (cur : List β),
      List.zipWith f x (List.zipWith h x cur) = List.zipWith (fun a c => f a (h a c)) x cur
  | [], _ => rfl
  | _ :: _, [] => rfl
  | a :: x, c :: cur => by
    simp only [List.zipWith_cons_cons]
    rw [zipWith_fuse f h x cur]

theorem replaceMat_foldl_rows (mask : List ℕ) (x : Mat) :
    ∀ (perm : List ℕ) (cur : Mat), cur.length = x.length →
      perm.foldl (fun c g => replaceMat mask g x c) cur =
        List.zipWith (fun xr cr => perm.foldl (fun c g => replaceRow mask g xr c) cr) x cur := by
  intro perm
  induction perm with
  | nil =>
    intro cur h
    simp only [List.foldl_nil]
    exact (zipWith_id_right _ x cur h (fun _ _ => rfl)).symm
  | cons g perm ih =>
    intro cur h
    simp only [List.foldl_cons]
    rw [ih (replaceMat mask g x cur)
      (by rw [length_replaceMat, h, min_self])]
    rw [show replaceMat mask g x cur =
      List.zipWith (fun xr cr => replaceRow mask g xr cr) x cur from rfl]
    rw [zipWith_fuse]

theorem replaceRow_foldl_char (mask : List ℕ) (xr : Vec) :
    ∀ (perm : List ℕ) (cr : Vec), xr.length = mask.length → cr.length = mask.length →
      perm.foldl (fun c g => replaceRow mask g xr c) cr = mergeRow perm mask xr cr := by
  intro perm
  induction perm with
  | nil =>
    intro cr hx hc
    simp only [List.foldl_nil]
    exact (mergeRow_nil_applied hx hc).symm
  | cons g perm ih =>
    intro cr hx hc
    simp only [List.foldl_cons]
    rw [ih (replaceRow mask g xr cr) hx (replaceRow_length g hx hc),
      mergeRow_replaceRow]

theorem replaceRow_foldl_covered (mask : List ℕ) (xr : Vec) (perm : List ℕ) (cr : Vec)
    (hx : xr.length = mask.length) (hc : cr.length = mask.length)
    (hcov : ∀ g ∈ mask, g ∈ perm) :
    perm.foldl (fun c g => replaceRow mask g xr c) cr = xr := by
  rw [replaceRow_foldl_char mask xr perm cr hx hc, mergeRow_covered hx hc hcov]

theorem replace_foldl_covered (mask : List ℕ) :
    ∀ (x cur : Mat) (perm : List ℕ), cur.length = x.length →
      (∀ r ∈ x, r.length = mask.length) → (∀ r ∈ cur, r.length = mask.length) →
      (∀ g ∈ mask, g ∈ perm) →
      perm.foldl (fun c g => replaceMat mask g x c) cur = x := by
  intro x
  induction x with
  | nil =>
    intro cur perm h _ _ _
    rw [replaceMat_foldl_rows mask [] perm cur h]
    rfl
  | cons xr x ih =>
    intro cur perm h hx hc hcov
    cases cur with
    | nil => simp at h
    | cons cr cur =>
      rw [replaceMat_foldl_rows mask (xr :: x) perm (cr :: cur) h]
      simp only [List.zipWith_cons_cons]
      rw [replaceRow_foldl_covered mask xr perm cr (hx xr (by simp)) (hc cr (by simp)) hcov]
      have := ih cur perm (by simpa using h)
        (fun r hr => hx r (by simp [hr])) (fun r hr => hc r (by simp [hr])) hcov
      rw [replaceMat_foldl_rows mask x perm cur (by simpa using h)] at this
      rw [this]

theorem replace_foldl_dims (mask : List ℕ) (x : Mat) (hx : ∀ r ∈ x, r.length = mask.length) :
    ∀ (perm : List ℕ) (cur : Mat), cur.length = x.length →
      (∀ r ∈ cur, r.length = mask.length) →
      (perm.foldl (fun c g => replaceMat mask g x c) cur).length = x.length ∧
        (∀ r ∈ perm.foldl (fun c g => replaceMat mask g x c) cur, r.length = mask.length) := by
  intro perm
  induction perm with
  | nil => intro cur h hc; exact ⟨h, hc⟩
  | cons g perm ih =>
    intro cur h hc
    simp only [List.foldl_cons]
    exact ih (replaceMat mask g x cur)
      (by rw [length_replaceMat, h, min_self])
      (rowsLen_replaceMat hx hc)

/-- Unfolding equation for one `sampleStep`. -/
theorem sampleStep_eq (f : Mat → Vec) (mask : List ℕ) (x cur : Mat) (ev : Vec) (acc : Mat)
    (g : ℕ) :
    sampleStep f mask x (cur, ev, acc) g =
      (replaceMat mask g x cur, f (replaceMat mask g x cur),
        scatterMat mask g (vsub (f (replaceMat mask g x cur)) ev) acc) := rfl

theorem sampleStep_foldl_acc (f : Mat → Vec) (mask : List ℕ) (x : Mat)
    (hf : ∀ m : Mat, m.length = x.length → (∀ r ∈ m, r.length = mask.length) →
      (f m).length = x.length)
    (hx : ∀ r ∈ x, r.length = mask.length) :
    ∀ (perm : List ℕ) (cur : Mat) (ev : Vec) (acc : Mat),
      cur.length = x.length → (∀ r ∈ cur, r.length = mask.length) →
      ev.length = x.length →
      acc.length = x.length → (∀ r ∈ acc, r.length = mask.length) →
      (perm.foldl (sampleStep f mask x) (cur, ev, acc)).2.2.length = x.length ∧
        (∀ r ∈ (perm.foldl (sampleStep f mask x) (cur, ev, acc)).2.2,
          r.length = mask.length) := by
  intro perm
  induction perm with
  | nil => intro cur ev acc _ _ _ ha hw; exact ⟨ha, hw⟩
  | cons g perm ih =>
    intro cur ev acc hcl hcw hev hal haw
    simp only [List.foldl_cons, sampleStep_eq]
    have hnl : (replaceMat mask g x cur).length = x.length := by
      rw [length_replaceMat, hcl, min_self]
    have hnw := rowsLen_replaceMat hx hcw (g := g)
    have hfl : (f (replaceMat mask g x cur)).length = x.length := hf _ hnl hnw
    refine ih _ _ _ hnl hnw hfl ?_ (rowsLen_scatterMat haw)
    rw [length_scatterMat, length_vsub, hfl, hev, min_self, hal, min_self]

theorem sampleStep_foldl_rowSums (f : Mat → Vec) (mask : List ℕ) (x : Mat)
    (hf : ∀ m : Mat, m.length = x.length → (∀ r ∈ m, r.length = mask.length) →
      (f m).length = x.length)
    (hx : ∀ r ∈ x, r.length = mask.length) :
    ∀ (perm : List ℕ) (cur acc : Mat),
      (∀ g ∈ perm, mask.count g = 1) →
      cur.length = x.length → (∀ r ∈ cur, r.length = mask.length) →
      acc.length = x.length → (∀ r ∈ acc, r.length = mask.length) →
      rowSums (perm.foldl (sampleStep f mask x) (cur, f cur, acc)).2.2 =
        vadd (rowSums acc)
          (vsub (f (perm.foldl (fun c g => replaceMat mask g x c) cur)) (f cur)) := by
  intro perm
  induction perm with
  | nil =>
    intro cur acc _ hcl hcw hal _
    simp only [List.foldl_nil]
    exact (vadd_vsub_self (by rw [hf cur hcl hcw, length_rowSums, hal])).symm
  | cons g perm ih =>
    intro cur acc hcnt hcl hcw hal haw
    simp only [List.foldl_cons, sampleStep_eq]
    have hnl : (replaceMat mask g x cur).length = x.length := by
      rw [length_replaceMat, hcl, min_self]
    have hnw := rowsLen_replaceMat hx hcw (g := g)
    have hfn : (f (replaceMat mask g x cur)).length = x.length := hf _ hnl hnw
    have hfc : (f cur).length = x.length := hf _ hcl hcw
    have hacc2l : (scatterMat mask g (vsub (f (replaceMat mask g x cur)) (f cur)) acc).length
        = x.length := by
      rw [length_scatterMat, length_vsub, hfn, hfc, min_self, hal, min_self]
    rw [ih (replaceMat mask g x cur)
      (scatterMat mask g (vsub (f (replaceMat mask g x cur)) (f cur)) acc)
      (fun g2 hg2 => hcnt g2 (List.mem_cons_of_mem g hg2))
      hnl hnw hacc2l (rowsLen_scatterMat haw)]
    rw [rowSums_scatterMat mask g _ acc haw]
    rw [show (mask.count g : ℚ) = 1 by
      rw [hcnt g (List.mem_cons_self g perm)]; exact Nat.cast_one]
    rw [smulVec_one]
    have hR := replace_foldl_dims mask x hx perm (replaceMat mask g x cur) hnl hnw
    exact vadd_vsub_cancel
      (by rw [hfn, length_rowSums, hal])
      (by rw [hfc, length_rowSums, hal])
      (by rw [hf _ hR.1 hR.2, length_rowSums, hal])

/-! ## Per-sample and averaged attribution lemmas -/

theorem sampleAttrib_dims (f : Mat → Vec) (mask : List ℕ) (x b : Mat) (perm : List ℕ)
    (hf : ∀ m : Mat, m.length = x.length → (∀ r ∈ m, r.length = mask.length) →
      (f m).length = x.length)
    (hx : ∀ r ∈ x, r.length = mask.length)
    (hbL : b.length = x.length) (hbW : ∀ r ∈ b, r.length = mask.length) :
    (sampleAttrib f mask x b perm).length = x.length ∧
      (∀ r ∈ sampleAttrib f mask x b perm, r.length = mask.length) :=
  sampleStep_foldl_acc f mask x hf hx perm b (f b) (zeroLike x) hbL hbW (hf b hbL hbW)
    (length_zeroLike x) (rowsLen_zeroLike hx)

theorem vadd_smul_zero : ∀ {u Δ : Vec}, Δ.length = u.length → vadd u (smulVec 0 Δ) = u
  | [], _, _ => by simp [vadd]
  | _ :: _, [], h => by simp at h
  | a :: u, d :: Δ, h => by
    rw [smulVec_cons, vadd_cons, vadd_smul_zero (by simpa using h)]
    simp

/-- One sampled permutation that has every group exactly once contributes an
attribution matrix whose row sums are exactly `f x - f b`. -/
theorem sampleAttrib_rowSums (f : Mat → Vec) (mask : List ℕ) (x b : Mat) (perm : List ℕ)
    (hf : ∀ m : Mat, m.length = x.length → (∀ r ∈ m, r.length = mask.length) →
      (f m).length = x.length)
    (hx : ∀ r ∈ x, r.length = mask.length)
    (hbL : b.length = x.length) (hbW : ∀ r ∈ b, r.length = mask.length)
    (hcnt : ∀ g ∈ perm, mask.count g = 1)
    (hcov : ∀ g ∈ mask, g ∈ perm) :
    rowSums (sampleAttrib f mask x b perm) = vsub (f x) (f b) := by
  unfold sampleAttrib
  rw [sampleStep_foldl_rowSums f mask x hf hx perm b (zeroLike x) hcnt hbL hbW
    (length_zeroLike x) (rowsLen_zeroLike hx)]
  rw [replace_foldl_covered mask x b perm hbL hx hbW hcov]
  rw [rowSums_zeroLike]
  exact vadd_replicate_zero (by rw [length_vsub, hf x rfl hx, hf b hbL hbW, min_self])

theorem perms_foldl_rowSums (f : Mat → Vec) (mask : List ℕ) (x b : Mat)
    (hf : ∀ m : Mat, m.length = x.length → (∀ r ∈ m, r.length = mask.length) →
      (f m).length = x.length)
    (hx : ∀ r ∈ x, r.length = mask.length)
    (hbL : b.length = x.length) (hbW : ∀ r ∈ b, r.length = mask.length) :
    ∀ (perms : List (List ℕ)) (acc : Mat),
      acc.length = x.length → (∀ r ∈ acc, r.length = mask.length) →
      (∀ p ∈ perms, (∀ g ∈ p, mask.count g = 1) ∧ (∀ g ∈ mask, g ∈ p)) →
      rowSums (perms.foldl (fun a p => addMat a (sampleAttrib f mask x b p)) acc) =
        vadd (rowSums acc) (smulVec (perms.length : ℚ) (vsub (f x) (f b))) := by
  intro perms
  induction perms with
  | nil =>
    intro acc hal _ _
    simp only [List.foldl_nil, List.length_nil, Nat.cast_zero]
    exact (vadd_smul_zero (by
      rw [length_vsub, hf x rfl hx, hf b hbL hbW, min_self, length_rowSums, hal])).symm
  | cons p perms ih =>
    intro acc hal haw hall
    simp only [List.foldl_cons]
    have hAd := sampleAttrib_dims f mask x b p hf hx hbL hbW
    have hΔ : (vsub (f x) (f b)).length = x.length := by
      rw [length_vsub, hf x rfl hx, hf b hbL hbW, min_self]
    rw [ih (addMat acc (sampleAttrib f mask x b p))
      (by rw [length_addMat, hal, hAd.1, min_self])
      (rowsLen_addMat haw hAd.2) (fun q hq => hall q (by simp [hq]))]
    rw [rowSums_addMat mask.length acc (sampleAttrib f mask x b p) haw hAd.2]
    rw [sampleAttrib_rowSums f mask x b p hf hx hbL hbW
      (hall p (by simp)).1 (hall p (by simp)).2]
    rw [vadd_vadd_smul_succ ((perms.length : ℚ)) (by rw [hΔ, length_rowSums, hal])]
    congr 2
    rw [List.length_cons]
    push_cast
    ring

/-- Exact additivity of the averaged attribution: when every sampled
permutation visits each coalition group of the mask, and each visited group id
labels exactly one column, the per-row sums of the Shapley attribution matrix
equal `f x - f b` exactly, at every sample count ≥ 1. -/
theorem shapleyCore_rowSums (f : Mat → Vec) (mask : List ℕ) (x b : Mat)
    (perms : List (List ℕ))
    (hf : ∀ m : Mat, m.length = x.length → (∀ r ∈ m, r.length = mask.length) →
      (f m).length = x.length)
    (hx : ∀ r ∈ x, r.length = mask.length)
    (hbL : b.length = x.length) (hbW : ∀ r ∈ b, r.length = mask.length)
    (hne : perms ≠ [])
    (hall : ∀ p ∈ perms, (∀ g ∈ p, mask.count g = 1) ∧ (∀ g ∈ mask, g ∈ p)) :
    rowSums (shapleyCore f mask x b perms) = vsub (f x) (f b) := by
  unfold shapleyCore
  rw [rowSums_scaleMat,
    perms_foldl_rowSums f mask x b hf hx hbL hbW perms (zeroLike x)
      (length_zeroLike x) (rowsLen_zeroLike hx) hall,
    rowSums_zeroLike,
    vadd_replicate_zero (by
      rw [length_smulVec, length_vsub, hf x rfl hx, hf b hbL hbW, min_self]),
    smulVec_smulVec]
  have hn : (perms.length : ℚ) ≠ 0 :=
    Nat.cast_ne_zero.mpr (fun h => hne (List.length_eq_zero.mp h))
  rw [one_div_mul_cancel hn, smulVec_one]

/-- The averaged attribution matrix always has the input's shape. -/
theorem shapleyCore_dims (f : Mat → Vec) (mask : List ℕ) (x b : Mat)
    (perms : List (List ℕ))
    (hf : ∀ m : Mat, m.length = x.length → (∀ r ∈ m, r.length = mask.length) →
      (f m).length = x.length)
    (hx : ∀ r ∈ x, r.length = mask.length)
    (hbL : b.length = x.length) (hbW : ∀ r ∈ b, r.length = mask.length) :
    (shapleyCore f mask x b perms).length = x.length ∧
      ∀ r ∈ shapleyCore f mask x b perms, r.length = mask.length := by
  unfold shapleyCore
  have key : ∀ (ps : List (List ℕ)) (acc : Mat), acc.length = x.length →
      (∀ r ∈ acc, r.length = mask.length) →
      (ps.foldl (fun a p => addMat a (sampleAttrib f mask x b p)) acc).length = x.length ∧
        ∀ r ∈ ps.foldl (fun a p => addMat a (sampleAttrib f mask x b p)) acc,
          r.length = mask.length := by
    intro ps
    induction ps with
    | nil => intro acc h hw; exact ⟨h, hw⟩
    | cons p ps ih =>
      intro acc h hw
      simp only [List.foldl_cons]
      have hAd := sampleAttrib_dims f mask x b p hf hx hbL hbW
      exact ih _ (by rw [length_addMat, h, hAd.1, min_self]) (rowsLen_addMat hw hAd.2)
  have h2 := key perms (zeroLike x) (length_zeroLike x) (rowsLen_zeroLike hx)
  exact ⟨by rw [length_scaleMat]; exact h2.1, rowsLen_scaleMat h2.2⟩

/-! ## GraphSAGE lemmas -/

theorem length_matVec (M : Mat) (v : Vec) : (matVec M v).length = M.length :=
  List.length_map _ _

theorem length_sageConvForward (w : SAGEConvWeights) (edges : List (ℕ × ℕ)) (x : Mat) :
    (sageConvForward w edges x).length = x.length := by
  simp [sageConvForward]

/-- Well-formed trained weights of one conv layer producing width `H`. -/
def SAGEConvWeights.outWidth (w : SAGEConvWeights) (H : ℕ) : Prop :=
  w.lin_l.length = H ∧ w.lin_l_bias.length = H ∧ w.lin_r.length = H

theorem rowsLen_sageConvForward {H : ℕ} (w : SAGEConvWeights) (hw : w.outWidth H)
    (edges : List (ℕ × ℕ)) (x : Mat) :
    ∀ r ∈ sageConvForward w edges x, r.length = H := by
  intro r hr
  obtain ⟨i, _, rfl⟩ := List.mem_map.mp hr
  rw [length_vadd, length_vadd, length_matVec, length_matVec, hw.1, hw.2.1, hw.2.2,
    min_self, min_self]

theorem length_reluMat (m : Mat) : (reluMat m).length = m.length :=
  List.length_map _ _

theorem rowsLen_reluMat {F : ℕ} {m : Mat} (h : ∀ r ∈ m, r.length = F) :
    ∀ r ∈ reluMat m, r.length = F := by
  intro r hr
  obtain ⟨r0, hr0, rfl⟩ := List.mem_map.mp hr
  simpa using h r0 hr0

theorem length_dropoutMat (training : Bool) (keep : ℕ → ℕ → Bool) (p : ℚ) (m : Mat) :
    (dropoutMat training keep p m).length = m.length := by
  cases training <;> simp [dropoutMat]

theorem rowsLen_dropoutMat {F : ℕ} (training : Bool) (keep : ℕ → ℕ → Bool) (p : ℚ)
    {m : Mat} (h : ∀ r ∈ m, r.length = F) :
    ∀ r ∈ dropoutMat training keep p m, r.length = F := by
  cases training with
  | false => exact h
  | true =>
    intro r hr
    simp only [dropoutMat, if_pos] at hr
    obtain ⟨i, hi, rfl⟩ := List.mem_map.mp hr
    rw [List.mem_range] at hi
    simp only [List.length_map, List.length_range]
    rw [List.getD_eq_getElem?_getD, List.getElem?_eq_getElem hi]
    exact h _ (List.getElem_mem hi)

/-- In eval mode (`training = false`) dropout is the identity, whatever the
random mask: the pipeline's mandatory production configuration. -/
theorem dropoutMat_eval (keep : ℕ → ℕ → Bool) (p : ℚ) (m : Mat) :
    dropoutMat false keep p m = m := rfl

theorem layersOut_foldl_length (g : GraphSAGE) (rnd : ℕ → ℕ → ℕ → Bool)
    (edges : List (ℕ × ℕ)) :
    ∀ (l : List SAGEConvWeights) (s : Mat × ℕ),
      ((l.foldl (fun s conv =>
        (dropoutMat g.training (rnd s.2) g.dropout_prob
          (reluMat (sageConvForward conv edges s.1)), s.2 + 1)) s).1).length =
        s.1.length := by
  intro l
  induction l with
  | nil => intro s; rfl
  | cons c l ih =>
    intro s
    simp only [List.foldl_cons]
    rw [ih]
    simp [length_dropoutMat, length_reluMat, length_sageConvForward]

theorem layersOut_length (g : GraphSAGE) (rnd : ℕ → ℕ → ℕ → Bool) (x : Mat)
    (edges : List (ℕ × ℕ)) : (g.layersOut rnd x edges).length = x.length := by
  unfold GraphSAGE.layersOut
  exact layersOut_foldl_length g rnd edges g.convs (x, 0)

theorem layersOut_foldl_rowsLen (g : GraphSAGE) (rnd : ℕ → ℕ → ℕ → Bool)
    (edges : List (ℕ × ℕ)) :
    ∀ (l : List SAGEConvWeights), l ≠ [] → (∀ c ∈ l, c.outWidth g.hidden_channels) →
      ∀ (s : Mat × ℕ),
        ∀ r ∈ (l.foldl (fun s conv =>
          (dropoutMat g.training (rnd s.2) g.dropout_prob
            (reluMat (sageConvForward conv edges s.1)), s.2 + 1)) s).1,
          r.length = g.hidden_channels := by
  intro l
  induction l with
  | nil => intro h; exact absurd rfl h
  | cons c l ih =>
    intro _ hwf s
    cases l with
    | nil =>
      simp only [List.foldl_cons, List.foldl_nil]
      exact rowsLen_dropoutMat _ _ _
        (rowsLen_reluMat (rowsLen_sageConvForward c (hwf c (by simp)) edges s.1))
    | cons c2 l2 =>
      simp only [List.foldl_cons]
      exact ih (List.cons_ne_nil c2 l2) (fun d hd => hwf d (by simp [hd]))
        (dropoutMat g.training (rnd s.2) g.dropout_prob
          (reluMat (sageConvForward c edges s.1)), s.2 + 1)

theorem layersOut_rowsLen (g : GraphSAGE) (rnd : ℕ → ℕ → ℕ → Bool) (x : Mat)
    (edges : List (ℕ × ℕ)) (hne : g.convs ≠ [])
    (hwf : ∀ c ∈ g.convs, c.outWidth g.hidden_channels) :
    ∀ r ∈ g.layersOut rnd x edges, r.length = g.hidden_channels := by
  unfold GraphSAGE.layersOut
  exact layersOut_foldl_rowsLen g rnd edges g.convs hne hwf (x, 0)

theorem rowsLen_zipWith_append {F H : ℕ} :
    ∀ {x emb : Mat}, (∀ r ∈ x, r.length = F) → (∀ r ∈ emb, r.length = H) →
      ∀ r ∈ List.zipWith (fun a b => a ++ b) x emb, r.length = F + H
  | [], emb, _, _ => by simp
  | _ :: _, [], _, _ => by simp
  | xr :: x, er :: emb, hx, he => by
    simp only [List.zipWith_cons_cons, List.mem_cons]
    rintro r (rfl | hr)
    · rw [List.length_append, hx xr (by simp), he er (by simp)]
    · exact rowsLen_zipWith_append (fun r hr2 => hx r (by simp [hr2]))
        (fun r hr2 => he r (by simp [hr2])) r hr

theorem length_forward_hidden (g : GraphSAGE) (rnd : ℕ → ℕ → ℕ → Bool) (x : Mat)
    (edges : List (ℕ × ℕ)) : (g.forward rnd x edges true).length = x.length := by
  unfold GraphSAGE.forward
  simp only [if_pos]
  rw [List.length_zipWith, layersOut_length, min_self]

theorem layersOut_rnd_irrelevant (g : GraphSAGE) (h : g.training = false)
    (rnd1 rnd2 : ℕ → ℕ → ℕ → Bool) (x : Mat) (edges : List (ℕ × ℕ)) :
    g.layersOut rnd1 x edges = g.layersOut rnd2 x edges := by
  unfold GraphSAGE.layersOut
  exact congrArg Prod.fst (List.foldl_ext _ _ (x, 0)
    (fun s conv _ => by rw [h, dropoutMat_eval, dropoutMat_eval]))

theorem forward_rnd_irrelevant (g : GraphSAGE) (h : g.training = false)
    (rnd1 rnd2 : ℕ → ℕ → ℕ → Bool) (x : Mat) (edges : List (ℕ × ℕ))
    (return_hidden : Bool) :
    g.forward rnd1 x edges return_hidden = g.forward rnd2 x edges return_hidden := by
  unfold GraphSAGE.forward
  rw [layersOut_rnd_irrelevant g h rnd1 rnd2 x edges]

theorem scoreFromRaw_length (st : ModelState) (rnd : ℕ → ℕ → ℕ → Bool)
    (edges : List (ℕ × ℕ)) (m : Mat) : (scoreFromRaw st rnd edges m).length = m.length := by
  unfold scoreFromRaw
  rw [List.length_map, length_forward_hidden]

/-! ## Pipeline plumbing lemmas -/

theorem bindOk {ε α β : Type} (a : α) (k : α → Except ε β) :
    (Except.ok a >>= k : Except ε β) = k a := rfl

theorem bindErr {ε α β : Type} (e : ε) (k : α → Except ε β) :
    (Except.error e >>= k : Except ε β) = Except.error e := rfl

theorem dims_zeroLike (m : Mat) : dims (zeroLike m) = dims m := by
  simp [dims, zeroLike, List.map_map, Function.comp]

theorem dims_eq_replicate {F : ℕ} : ∀ {m : Mat}, (∀ r ∈ m, r.length = F) →
    dims m = List.replicate m.length F
  | [], _ => rfl
  | r :: m, h => by
    simp only [dims, List.map_cons, List.length_cons, List.replicate_succ]
    rw [show List.map List.length m = dims m from rfl,
      dims_eq_replicate (fun r2 hr2 => h r2 (by simp [hr2])), h r (by simp)]

/-! ## Claim theorems -/

/-- C3: for every node-feature matrix and edge list, `GraphSAGE.forward` with
`return_hidden = true` pairs each node's ORIGINAL input feature row with its
final aggregation-layer output by concatenation (skip connection), so every
returned row has width `in_channels + hidden_channels`. -/
theorem embedding_skip_connection_width (g : GraphSAGE) (rnd : ℕ → ℕ → ℕ → Bool)
    (x : Mat) (edges : List (ℕ × ℕ))
    (hne : g.convs ≠ []) (hwf : ∀ c ∈ g.convs, c.outWidth g.hidden_channels)
    (hx : ∀ r ∈ x, r.length = g.in_channels) :
    g.forward rnd x edges true =
        List.zipWith (fun a b => a ++ b) x (g.layersOut rnd x edges) ∧
      ∀ r ∈ g.forward rnd x edges true,
        r.length = g.in_channels + g.hidden_channels := by
  constructor
  · rfl
  · intro r hr
    exact rowsLen_zipWith_append hx (layersOut_rowsLen g rnd x edges hne hwf) r hr

/-- Witness for C3 at the concrete fixture. -/
theorem embedding_skip_connection_width_witness :
    fixtureSAGE.forward fixtureRnd [[1, 1]] [] true =
        List.zipWith (fun a b => a ++ b) [[1, 1]]
          (fixtureSAGE.layersOut fixtureRnd [[1, 1]] []) ∧
      ∀ r ∈ fixtureSAGE.forward fixtureRnd [[1, 1]] [] true, r.length = 2 + 1 :=
  embedding_skip_connection_width fixtureSAGE fixtureRnd [[1, 1]] []
    (by decide)
    (fun c hc => by
      rw [show fixtureSAGE.convs = [fixtureConv] from rfl, List.mem_singleton] at hc
      subst hc
      exact ⟨rfl, rfl, rfl⟩)
    (by decide)

/-- C4: with the embedder in eval mode (`model.eval()` in `initialize`, so
dropout is a deterministic no-op), the composed scoring function
`forward_function ∘ bst.predict` is a pure function of the node features,
edge list and loaded weights: its value does not depend on the dropout
randomness source, so two calls with identical inputs return identical
outputs and no hidden state is consulted or mutated. -/
theorem scoring_deterministic_eval_mode (st : ModelState)
    (rnd1 rnd2 : ℕ → ℕ → ℕ → Bool) (edges : List (ℕ × ℕ)) (m : Mat)
    (h : st.model.training = false) :
    scoreFromRaw st rnd1 edges m = scoreFromRaw st rnd2 edges m := by
  unfold scoreFromRaw
  rw [forward_rnd_irrelevant st.model h rnd1 rnd2 m edges true]

/-- Witness for C4: two different dropout-randomness sources give the same
score on the fixture. -/
theorem scoring_deterministic_eval_mode_witness :
    scoreFromRaw fixtureState fixtureRnd [] [[1, 1]] =
      scoreFromRaw fixtureState fixtureRnd2 [] [[1, 1]] :=
  scoring_deterministic_eval_mode fixtureState fixtureRnd fixtureRnd2 [] [[1, 1]] rfl

/-- C7: `initialize` reads its six configuration entries by direct indexing
with no defaults: if the lookup of any required key yields nothing,
initialization returns an error (aborting startup); and on success every
required key was present and every stored value is exactly the parsed
configuration value — nothing is silently defaulted. -/
theorem config_keys_required_no_defaults (params : String → Option String)
    (loadSD : String → StateDict) (loadBst : String → Booster) :
    (∀ k ∈ requiredKeys, params k = none →
      ∃ e, initializeModel params loadSD loadBst = Except.error e) ∧
    (∀ st, initializeModel params loadSD loadBst = Except.ok st →
      (∀ k ∈ requiredKeys, (params k).isSome = true) ∧
      some st.in_channels = (params "in_channels").bind String.toNat? ∧
      some st.hidden_channels = (params "hidden_channels").bind String.toNat? ∧
      some st.out_channels = (params "out_channels").bind String.toNat? ∧
      some st.n_layers = (params "n_layers").bind String.toNat? ∧
      some st.embedder_state_dict_filename =
        params "embedding_generator_model_state_dict" ∧
      some st.xgb_model_filename = params "embeddings_based_xgboost_model") := by
  have part2 : ∀ st, initializeModel params loadSD loadBst = Except.ok st →
      (∀ k ∈ requiredKeys, (params k).isSome = true) ∧
      some st.in_channels = (params "in_channels").bind String.toNat? ∧
      some st.hidden_channels = (params "hidden_channels").bind String.toNat? ∧
      some st.out_channels = (params "out_channels").bind String.toNat? ∧
      some st.n_layers = (params "n_layers").bind String.toNat? ∧
      some st.embedder_state_dict_filename =
        params "embedding_generator_model_state_dict" ∧
      some st.xgb_model_filename = params "embeddings_based_xgboost_model" := by
    intro st h
    unfold initializeModel requireKey parseNatConfig at h
    cases hk1 : params "in_channels" with
    | none => rw [hk1] at h; exact absurd h (by simp [bindErr])
    | some s1 =>
    rw [hk1] at h
    simp only [bindOk] at h
    cases hs1 : s1.toNat? with
    | none => rw [hs1] at h; exact absurd h (by simp [bindErr])
    | some ic =>
    rw [hs1] at h
    simp only [bindOk] at h
    cases hk2 : params "hidden_channels" with
    | none => rw [hk2] at h; exact absurd h (by simp [bindErr])
    | some s2 =>
    rw [hk2] at h
    simp only [bindOk] at h
    cases hs2 : s2.toNat? with
    | none => rw [hs2] at h; exact absurd h (by simp [bindErr])
    | some hc =>
    rw [hs2] at h
    simp only [bindOk] at h
    cases hk3 : params "out_channels" with
    | none => rw [hk3] at h; exact absurd h (by simp [bindErr])
    | some s3 =>
    rw [hk3] at h
    simp only [bindOk] at h
    cases hs3 : s3.toNat? with
    | none => rw [hs3] at h; exact absurd h (by simp [bindErr])
    | some oc =>
    rw [hs3] at h
    simp only [bindOk] at h
    cases hk4 : params "n_layers" with
    | none => rw [hk4] at h; exact absurd h (by simp [bindErr])
    | some s4 =>
    rw [hk4] at h
    simp only [bindOk] at h
    cases hs4 : s4.toNat? with
    | none => rw [hs4] at h; exact absurd h (by simp [bindErr])
    | some nl =>
    rw [hs4] at h
    simp only [bindOk] at h
    cases hk5 : params "embedding_generator_model_state_dict" with
    | none => rw [hk5] at h; exact absurd h (by simp [bindErr])
    | some s5 =>
    rw [hk5] at h
    simp only [bindOk] at h
    cases hk6 : params "embeddings_based_xgboost_model" with
    | none => rw [hk6] at h; exact absurd h (by simp [bindErr])
    | some s6 =>
    rw [hk6] at h
    simp only [bindOk] at h
    have hst := (Except.ok.injEq _ _).mp h.symm
    subst hst
    refine ⟨?_, ?_, ?_, ?_, ?_, ?_, ?_⟩
    · intro k hk
      simp only [requiredKeys, List.mem_cons, List.mem_singleton] at hk
      rcases hk with rfl | rfl | rfl | rfl | rfl | rfl | hk
      · rw [hk1]; rfl
      · rw [hk2]; rfl
      · rw [hk3]; rfl
      · rw [hk4]; rfl
      · rw [hk5]; rfl
      · rw [hk6]; rfl
      · cases hk
    · rw [Option.some_bind, hs1]
    · rw [Option.some_bind, hs2]
    · rw [Option.some_bind, hs3]
    · rw [Option.some_bind, hs4]
    · rfl
    · rfl
  refine ⟨?_, part2⟩
  intro k hk hnone
  cases hres : initializeModel params loadSD loadBst with
  | error e => exact ⟨e, rfl⟩
  | ok st =>
    have := (part2 st hres).1 k hk
    rw [hnone] at this
    cases this

/-- Witness for C7: with `n_layers` removed from the configuration,
initialization reports an error. -/
theorem config_keys_required_no_defaults_witness :
    ∃ e, initializeModel missingParams (fun _ => fixtureSD) (fun _ => fixtureBooster) =
      Except.error e :=
  (config_keys_required_no_defaults missingParams (fun _ => fixtureSD)
    (fun _ => fixtureBooster)).1 "n_layers" (by decide) (by decide)

theorem pure_ne_error {ε α : Type} (a : α) (e : ε) :
    (pure a : Except ε α) ≠ Except.error e := fun h => Except.noConfusion h

/-- The checked embedding step only ever raises the feature-width error. -/
theorem forwardChecked_error {g : GraphSAGE} {rnd : ℕ → ℕ → ℕ → Bool} {x : Mat}
    {edges : List (ℕ × ℕ)} {rh : Bool} {e : ReqError}
    (h : g.forwardChecked rnd x edges rh = Except.error e) :
    e = ReqError.featureWidthMismatch := by
  unfold GraphSAGE.forwardChecked at h
  split at h
  · exact absurd h (by simp)
  · exact ((Except.error.injEq _ _).mp h).symm

/-- The checked scoring step only ever raises the ensemble-width error. -/
theorem predictChecked_error {b : Booster} {m : Mat} {e : ReqError}
    (h : b.predictChecked m = Except.error e) :
    e = ReqError.scoringWidthMismatch := by
  unfold Booster.predictChecked at h
  split at h
  · exact absurd h (by simp)
  · exact ((Except.error.injEq _ _).mp h).symm

/-- C8: when a request's `COMPUTE_SHAP` flag is false, the Shapley branch is
never entered: no `ShapleyValueSampling` object is constructed, the only
scoring pass is the mandatory one, and no sample count is ever drawn. -/
theorem skip_flag_no_shapley_invocation (st : ModelState) (rnd : ℕ → ℕ → ℕ → Bool)
    (sampler : ℕ → List (List ℕ)) (req : Request) (resp : Response) (tr : Trace)
    (hflag : req.compute_shap = false)
    (h : processRequest st rnd sampler req = Except.ok (resp, tr)) :
    tr.shapleyConstructed = false ∧ tr.scoringCalls = 1 ∧ tr.nSamplesUsed = none := by
  unfold processRequest at h
  cases hemb : st.model.forwardChecked rnd req.node_features req.edge_index true with
  | error e => rw [hemb, bindErr] at h; simp at h
  | ok emb =>
    rw [hemb, bindOk] at h
    cases hy : st.bst.predictChecked emb with
    | error e => rw [hy, bindErr] at h; simp at h
    | ok y =>
      rw [hy, bindOk] at h
      split at h
      case isTrue hcond => rw [hflag] at hcond; cases hcond
      case isFalse hcond =>
        have := ((Prod.mk.injEq _ _ _ _).mp ((Except.ok.injEq _ _).mp h)).2
        rw [← this]
        exact ⟨rfl, rfl, rfl⟩

set_option maxRecDepth 8000 in
/-- Witness for C8 at the concrete one-node fixture request. -/
theorem skip_flag_no_shapley_invocation_witness :
    traceF1.shapleyConstructed = false ∧ traceF1.scoringCalls = 1 ∧
      traceF1.nSamplesUsed = none :=
  skip_flag_no_shapley_invocation fixtureState fixtureRnd fixtureSampler req1F
    respF1 traceF1 rfl (by with_unfolding_all decide)

/-- C9: the Shapley sample count is the hard-coded constant 128: whenever the
attribution branch runs, the trace records `n_samples = 128`, whatever the
request contents (a `Request` carries no sample-count input at all). -/
theorem n_samples_constant_128 (st : ModelState) (rnd : ℕ → ℕ → ℕ → Bool)
    (sampler : ℕ → List (List ℕ)) (req : Request) (resp : Response) (tr : Trace)
    (h : processRequest st rnd sampler req = Except.ok (resp, tr)) :
    tr.nSamplesUsed = if req.compute_shap then some 128 else none := by
  unfold processRequest at h
  cases hemb : st.model.forwardChecked rnd req.node_features req.edge_index true with
  | error e => rw [hemb, bindErr] at h; simp at h
  | ok emb =>
    rw [hemb, bindOk] at h
    cases hy : st.bst.predictChecked emb with
    | error e => rw [hy, bindErr] at h; simp at h
    | ok y =>
      rw [hy, bindOk] at h
      split at h
      case isTrue hcond =>
        cases hat : attributeChecked (scoreFromRaw st rnd req.edge_index)
            req.node_features (zeroLike req.node_features) req.feature_mask 128 sampler with
        | error e => rw [hat, bindErr] at h; simp at h
        | ok res =>
          rw [hat, bindOk] at h
          have := ((Prod.mk.injEq _ _ _ _).mp ((Except.ok.injEq _ _).mp h)).2
          rw [← this, if_pos hcond]
      case isFalse hcond =>
        have := ((Prod.mk.injEq _ _ _ _).mp ((Except.ok.injEq _ _).mp h)).2
        rw [← this, if_neg hcond]

set_option maxRecDepth 40000 in
/-- Witness for C9 at the concrete one-node fixture request with
`COMPUTE_SHAP` true. -/
theorem n_samples_constant_128_witness :
    traceT1.nSamplesUsed = if req1T.compute_shap then some 128 else none :=
  n_samples_constant_128 fixtureState fixtureRnd fixtureSampler req1T
    respT1 traceT1 (by with_unfolding_all decide)

/-- C10: the Shapley baseline is built internally as `zeros_like` of the
request's `NODE_FEATURES`, so it always has the input's shape and the
baseline/input shape-mismatch error of the attribution step is unreachable. -/
theorem baseline_zeros_like_input (st : ModelState) (rnd : ℕ → ℕ → ℕ → Bool)
    (sampler : ℕ → List (List ℕ)) (req : Request) :
    processRequest st rnd sampler req ≠ Except.error ReqError.baselineShapeMismatch ∧
      ∀ resp tr, processRequest st rnd sampler req = Except.ok (resp, tr) →
        req.compute_shap = true →
        tr.baselineUsed = some (zeroLike req.node_features) ∧
          dims (zeroLike req.node_features) = dims req.node_features := by
  constructor
  · intro hcontra
    unfold processRequest at hcontra
    cases hemb : st.model.forwardChecked rnd req.node_features req.edge_index true with
    | error e =>
      rw [hemb, bindErr] at hcontra
      rw [forwardChecked_error hemb] at hcontra
      exact absurd hcontra (by decide)
    | ok emb =>
      rw [hemb, bindOk] at hcontra
      cases hy : st.bst.predictChecked emb with
      | error e =>
        rw [hy, bindErr] at hcontra
        rw [predictChecked_error hy] at hcontra
        exact absurd hcontra (by decide)
      | ok y =>
        rw [hy, bindOk] at hcontra
        split at hcontra
        · unfold attributeChecked at hcontra
          rw [if_pos (dims_zeroLike req.node_features),
            if_pos (by norm_num : 1 ≤ 128), bindOk] at hcontra
          exact pure_ne_error _ _ hcontra
        · exact pure_ne_error _ _ hcontra
  · intro resp tr h hflag
    unfold processRequest at h
    cases hemb : st.model.forwardChecked rnd req.node_features req.edge_index true with
    | error e => rw [hemb, bindErr] at h; simp at h
    | ok emb =>
      rw [hemb, bindOk] at h
      cases hy : st.bst.predictChecked emb with
      | error e => rw [hy, bindErr] at h; simp at h
      | ok y =>
        rw [hy, bindOk] at h
        split at h
        case isTrue hcond =>
          cases hat : attributeChecked (scoreFromRaw st rnd req.edge_index)
              req.node_features (zeroLike req.node_features) req.feature_mask 128 sampler with
          | error e => rw [hat, bindErr] at h; simp at h
          | ok res =>
            rw [hat, bindOk] at h
            have := ((Prod.mk.injEq _ _ _ _).mp ((Except.ok.injEq _ _).mp h)).2
            rw [← this]
            exact ⟨rfl, dims_zeroLike req.node_features⟩
        case isFalse hcond => exact absurd hflag hcond

set_option maxRecDepth 40000 in
/-- Witness for C10 at the concrete one-node fixture request. -/
theorem baseline_zeros_like_input_witness :
    traceT1.baselineUsed = some (zeroLike req1T.node_features) ∧
      dims (zeroLike req1T.node_features) = dims req1T.node_features :=
  (baseline_zeros_like_input fixtureState fixtureRnd fixtureSampler req1T).2
    respT1 traceT1 (by with_unfolding_all decide) rfl

/-- C5 (amended): `execute` has no per-request exception handling, so a
request that raises during embedding, scoring or attribution makes the whole
`execute` call fail: the exception propagates and no response list is
produced for the batch — not even for the requests that would have
succeeded.  (Shared weights and the tree ensemble are never mutated by
request processing, which only reads them.) -/
theorem execute_aborts_on_request_error (st : ModelState) (rnd : ℕ → ℕ → ℕ → Bool)
    (sampler : ℕ → List (List ℕ)) :
    ∀ (reqs : List Request),
      (∃ r ∈ reqs, ∃ e, processRequest st rnd sampler r = Except.error e) →
      ∃ e, execute st rnd sampler reqs = Except.error e := by
  intro reqs
  induction reqs with
  | nil => rintro ⟨r, hr, _⟩; cases hr
  | cons a rs ih =>
    rintro ⟨r, hr, e, he⟩
    rw [List.mem_cons] at hr
    cases hp : processRequest st rnd sampler a with
    | error e2 =>
      refine ⟨e2, ?_⟩
      show (processRequest st rnd sampler a >>= fun p =>
        (execute st rnd sampler rs >>= fun rest => pure (p.1 :: rest))) = Except.error e2
      rw [hp, bindErr]
    | ok p =>
      rcases hr with rfl | hr
      · rw [hp] at he; cases he
      · obtain ⟨e3, h3⟩ := ih ⟨r, hr, e, he⟩
        refine ⟨e3, ?_⟩
        show (processRequest st rnd sampler a >>= fun p =>
          (execute st rnd sampler rs >>= fun rest => pure (p.1 :: rest))) = Except.error e3
        rw [hp, bindOk, h3, bindErr]

/-- Counterexample for C5 as stated: a batch holding one well-formed request
and one malformed request produces no responses at all — the well-formed
request does not get a response, and the whole batch surfaces the error —
even though the well-formed request alone succeeds. -/
theorem batch_error_isolation_cex :
    execute fixtureState fixtureRnd fixtureSampler [req1F, reqBad] =
        Except.error ReqError.featureWidthMismatch ∧
      (processRequest fixtureState fixtureRnd fixtureSampler req1F).toOption.isSome =
        true ∧
      (processRequest fixtureState fixtureRnd fixtureSampler reqBad).toOption.isSome =
        false := by
  refine ⟨by with_unfolding_all decide, by with_unfolding_all decide,
    by with_unfolding_all decide⟩

/-- Witness for C5's amended theorem at the concrete two-request batch. -/
theorem execute_aborts_on_request_error_witness :
    ∃ e, execute fixtureState fixtureRnd fixtureSampler [req1F, reqBad] =
      Except.error e :=
  execute_aborts_on_request_error fixtureState fixtureRnd fixtureSampler
    [req1F, reqBad]
    ⟨reqBad, by decide, ReqError.featureWidthMismatch, by with_unfolding_all decide⟩

/-- C6 (amended): `initialize` performs no width validation between the
embedder and the tree ensemble; when the embedding width
`in_channels + hidden_channels` differs from the ensemble's expected feature
width, every non-empty well-shaped request fails at the scoring step inside
`execute` — a per-request error, not a startup one. -/
theorem width_mismatch_per_request_error (st : ModelState) (rnd : ℕ → ℕ → ℕ → Bool)
    (sampler : ℕ → List (List ℕ)) (req : Request)
    (hne : st.model.convs ≠ [])
    (hwf : ∀ c ∈ st.model.convs, c.outWidth st.model.hidden_channels)
    (hx : ∀ r ∈ req.node_features, r.length = st.model.in_channels)
    (hnonempty : req.node_features ≠ [])
    (hmm : st.model.in_channels + st.model.hidden_channels ≠ st.bst.numFeatures) :
    processRequest st rnd sampler req = Except.error ReqError.scoringWidthMismatch := by
  unfold processRequest GraphSAGE.forwardChecked Booster.predictChecked
  rw [if_pos hx, bindOk]
  rw [if_neg ?hneg, bindErr]
  case hneg =>
    intro hall
    obtain ⟨r0, hr0⟩ := List.exists_mem_of_ne_nil
      (st.model.forward rnd req.node_features req.edge_index true) (by
        intro hnil
        have hlen := length_forward_hidden st.model rnd req.node_features req.edge_index
        rw [hnil] at hlen
        exact hnonempty (List.eq_nil_of_length_eq_zero (by simpa using hlen.symm)))
    have hw := rowsLen_zipWith_append hx
      (layersOut_rowsLen st.model rnd req.node_features req.edge_index hne hwf) r0 hr0
    rw [hall r0 hr0] at hw
    exact hmm hw.symm

/-- Counterexample for C6 as stated: startup validation accepts a
configuration whose ensemble expects width 5 while the embedder produces
width 3, and the mismatch then surfaces on an ordinary request as a
per-request scoring error. -/
theorem width_mismatch_not_startup_cex :
    (initializeModel goodParams (fun _ => fixtureSD)
        (fun _ => mismatchBooster)).toOption.isSome = true ∧
      ((initializeModel goodParams (fun _ => fixtureSD)
          (fun _ => mismatchBooster)).toOption.map
        (fun st => processRequest st fixtureRnd fixtureSampler req1F)) =
        some (Except.error ReqError.scoringWidthMismatch) := by
  refine ⟨by with_unfolding_all decide, by with_unfolding_all decide⟩

/-- Witness for C6's amended theorem at the concrete mismatched deployment. -/
theorem width_mismatch_per_request_error_witness :
    processRequest mismatchState fixtureRnd fixtureSampler req1F =
      Except.error ReqError.scoringWidthMismatch :=
  width_mismatch_per_request_error mismatchState fixtureRnd fixtureSampler req1F
    (by decide)
    (fun c hc => by
      rw [show mismatchState.model.convs = [fixtureConv] from rfl,
        List.mem_singleton] at hc
      subst hc
      exact ⟨rfl, rfl, rfl⟩)
    (by decide) (by decide) (by decide)

/-- C2 (amended): for a request with attribution computed, when every sampled
permutation covers every coalition group of `FEATURE_MASK` and each sampled
group id labels exactly one feature column (singleton groups), the per-row
sums of `SHAP_VALUES` equal `scoring_fn(x) - scoring_fn(zero baseline)`
EXACTLY — the deviation is 0 at every sample count ≥ 1.  (With repeated ids
in the mask, a group's value is replicated into every member column, so the
plain per-feature sum overcounts; see the counterexample.) -/
theorem shapley_additivity_singleton_groups (st : ModelState)
    (rnd : ℕ → ℕ → ℕ → Bool) (sampler : ℕ → List (List ℕ)) (req : Request)
    (resp : Response) (tr : Trace)
    (h : processRequest st rnd sampler req = Except.ok (resp, tr))
    (hflag : req.compute_shap = true)
    (hmask : req.feature_mask.length = st.model.in_channels)
    (hne : sampler 128 ≠ [])
    (hall : ∀ p ∈ sampler 128, (∀ g ∈ p, req.feature_mask.count g = 1) ∧
      (∀ g ∈ req.feature_mask, g ∈ p)) :
    rowSums resp.shap_values =
      vsub (scoreFromRaw st rnd req.edge_index req.node_features)
        (scoreFromRaw st rnd req.edge_index (zeroLike req.node_features)) := by
  unfold processRequest GraphSAGE.forwardChecked at h
  split at h
  case isFalse => rw [bindErr] at h; simp at h
  case isTrue hx =>
    rw [bindOk] at h
    cases hy : st.bst.predictChecked
        (st.model.forward rnd req.node_features req.edge_index true) with
    | error e => rw [hy, bindErr] at h; simp at h
    | ok y =>
      rw [hy, bindOk] at h
      unfold attributeChecked at h
      rw [if_pos (dims_zeroLike req.node_features),
        if_pos (by norm_num : 1 ≤ 128), bindOk] at h
      have hpair := ((Prod.mk.injEq _ _ _ _).mp ((Except.ok.injEq _ _).mp h)).1
      rw [← hpair]
      have hx2 : ∀ r ∈ req.node_features, r.length = req.feature_mask.length := by
        intro r hr
        rw [hmask]
        exact hx r hr
      exact shapleyCore_rowSums (scoreFromRaw st rnd req.edge_index) req.feature_mask
        req.node_features (zeroLike req.node_features) (sampler 128)
        (fun m hm _ => by rw [scoreFromRaw_length]; exact hm)
        hx2 (length_zeroLike req.node_features) (rowsLen_zeroLike hx2) hne hall

set_option maxRecDepth 40000 in
/-- Witness for C2's amended theorem at the concrete one-node fixture request
whose two features are their own groups. -/
theorem shapley_additivity_singleton_groups_witness :
    rowSums respT1.shap_values =
      vsub (scoreFromRaw fixtureState fixtureRnd req1T.edge_index req1T.node_features)
        (scoreFromRaw fixtureState fixtureRnd req1T.edge_index
          (zeroLike req1T.node_features)) :=
  shapley_additivity_singleton_groups fixtureState fixtureRnd fixtureSampler req1T
    respT1 traceT1 (by with_unfolding_all decide) rfl (by decide) (by decide) (by decide)

set_option maxRecDepth 40000 in
/-- Counterexample for C2 as stated: on the fixture request whose two features
share ONE coalition group, the attributed matrix is `[[4, 4]]`, whose row sum
8 differs from `scoring_fn(x) - scoring_fn(baseline) = 4`; the deviation is
the same at 1 sample and at 128 samples, so no tolerance shrinking with
`n_samples` can make the claim true. -/
theorem shapley_additivity_cex :
    ((processRequest fixtureState fixtureRnd oneGroupSampler reqGrouped).toOption.map
        (fun p => rowSums p.1.shap_values) = some [8]) ∧
      vsub (scoreFromRaw fixtureState fixtureRnd [] reqGrouped.node_features)
        (scoreFromRaw fixtureState fixtureRnd [] (zeroLike reqGrouped.node_features)) =
        [4] ∧
      rowSums (shapleyCore (scoreFromRaw fixtureState fixtureRnd []) [0, 0] [[1, 1]]
        [[0, 0]] [[0]]) = [8] ∧
      rowSums (shapleyCore (scoreFromRaw fixtureState fixtureRnd []) [0, 0] [[1, 1]]
        [[0, 0]] (List.replicate 128 [0])) = [8] ∧
      (decide ((8 : ℚ) = 4)) = false := by
  refine ⟨by with_unfolding_all decide, by with_unfolding_all decide,
    by with_unfolding_all decide, by with_unfolding_all decide,
    by with_unfolding_all decide⟩

/-- C1 (amended): when `COMPUTE_SHAP` is false the emitted `SHAP_VALUES` is
the all-zero matrix of fixed shape `(1, in_channels)`; this equals the shape
emitted with `COMPUTE_SHAP` true exactly when the request has a single node
(`num_nodes = 1`).  For `num_nodes > 1` the two shapes differ (see the
counterexample): the attributed output has shape `(num_nodes, in_channels)`
while the skip output stays `(1, in_channels)`. -/
theorem shap_skip_shape_single_node (st : ModelState) (rnd : ℕ → ℕ → ℕ → Bool)
    (sampler : ℕ → List (List ℕ)) (nf : Mat) (ei : List (ℕ × ℕ)) (fm : List ℕ)
    (respT : Response) (trT : Trace) (respF : Response) (trF : Trace)
    (hone : nf.length = 1)
    (hmask : fm.length = st.model.in_channels)
    (hin : st.in_channels = st.model.in_channels)
    (hT : processRequest st rnd sampler ⟨nf, ei, true, fm⟩ = Except.ok (respT, trT))
    (hF : processRequest st rnd sampler ⟨nf, ei, false, fm⟩ = Except.ok (respF, trF)) :
    respF.shap_values = [List.replicate st.in_channels 0] ∧
      dims respF.shap_values = dims respT.shap_values := by
  have hFs : respF.shap_values = [List.replicate st.in_channels 0] := by
    unfold processRequest at hF
    cases hemb : st.model.forwardChecked rnd nf ei true with
    | error e => rw [hemb, bindErr] at hF; simp at hF
    | ok emb =>
      rw [hemb, bindOk] at hF
      cases hy : st.bst.predictChecked emb with
      | error e => rw [hy, bindErr] at hF; simp at hF
      | ok y =>
        rw [hy, bindOk] at hF
        split at hF
        case isTrue hcond => exact absurd hcond (by simp)
        case isFalse hcond =>
          have := ((Prod.mk.injEq _ _ _ _).mp ((Except.ok.injEq _ _).mp hF)).1
          rw [← this]
  refine ⟨hFs, ?_⟩
  unfold processRequest GraphSAGE.forwardChecked at hT
  split at hT
  case isFalse => rw [bindErr] at hT; simp at hT
  case isTrue hx =>
    rw [bindOk] at hT
    cases hy : st.bst.predictChecked (st.model.forward rnd nf ei true) with
    | error e => rw [hy, bindErr] at hT; simp at hT
    | ok y =>
      rw [hy, bindOk] at hT
      split at hT
      case isFalse hcond => exact absurd rfl hcond
      case isTrue hcond =>
        unfold attributeChecked at hT
        rw [if_pos (dims_zeroLike nf), if_pos (by norm_num : 1 ≤ 128), bindOk] at hT
        have hpair := ((Prod.mk.injEq _ _ _ _).mp ((Except.ok.injEq _ _).mp hT)).1
        rw [← hpair, hFs]
        have hx2 : ∀ r ∈ nf, r.length = fm.length := by
          intro r hr
          rw [hmask]
          exact hx r hr
        have hd := shapleyCore_dims (scoreFromRaw st rnd ei) fm nf (zeroLike nf)
          (sampler 128) (fun m hm _ => by rw [scoreFromRaw_length]; exact hm)
          hx2 (length_zeroLike nf) (rowsLen_zeroLike hx2)
        show dims [List.replicate st.in_channels 0] =
          dims (shapleyCore (scoreFromRaw st rnd ei) fm nf (zeroLike nf) (sampler 128))
        rw [dims_eq_replicate hd.2, hd.1, hone, hmask, hin]
        simp [dims]

set_option maxRecDepth 40000 in
/-- Witness for C1's amended theorem at the concrete one-node fixture
request. -/
theorem shap_skip_shape_single_node_witness :
    respF1.shap_values = [List.replicate fixtureState.in_channels 0] ∧
      dims respF1.shap_values = dims respT1.shap_values :=
  shap_skip_shape_single_node fixtureState fixtureRnd fixtureSampler
    [[1, 1]] [] [0, 1] respT1 traceT1 respF1 traceF1
    rfl rfl rfl (by with_unfolding_all decide) (by with_unfolding_all decide)

set_option maxRecDepth 40000 in
/-- Counterexample for C1 as stated: on a two-node request the attributed
`SHAP_VALUES` has shape `(2, 2)` while the skip branch emits shape `(1, 2)`:
the shapes differ for `num_nodes > 1`. -/
theorem shap_skip_shape_cex :
    ((processRequest fixtureState fixtureRnd fixtureSampler req2T).toOption.map
        (fun p => dims p.1.shap_values) = some [2, 2]) ∧
      ((processRequest fixtureState fixtureRnd fixtureSampler req2F).toOption.map
        (fun p => dims p.1.shap_values) = some [2]) ∧
      (decide (([2, 2] : List ℕ) = [2])) = false := by
  refine ⟨by with_unfolding_all decide, by with_unfolding_all decide, by decide⟩

end FraudModel
